import Mathlib

/-
Shallow embedding of the RustDB command interpreter (src/src/main.rs).

The Rust program is a single-threaded REPL over JSON-persisted tables.
We model the persistence directory `data/` as an association list from
table name to `Table` (the `Store`), Rust `HashMap`s as association
lists with overwrite-on-insert semantics, and a Rust `panic!` (every
`.unwrap()` failure, which kills the process) as `none` / the
`StepResult.crashed` outcome.  Console output is modelled structurally
by the `Outcome` type; the text formatting of `println!` is presentation
only and outside the modelled core.
-/

namespace RustDB

/-- Models a Rust `HashMap<String, α>` lookup (`HashMap::get`) on an
association-list representation: the first binding of the key wins. -/
def mapGet {α : Type} : List (String × α) → String → Option α
  | [], _ => none
  | (k, v) :: rest, key => if k = key then some v else mapGet rest key

/-- Models `HashMap::insert`: overwrites the binding when the key is
present, otherwise appends a fresh binding. -/
def mapInsert {α : Type} : List (String × α) → String → α → List (String × α)
  | [], key, val => [(key, val)]
  | (k, v) :: rest, key, val =>
    if k = key then (key, val) :: rest else (k, v) :: mapInsert rest key val

/-- Models `HashMap::remove` / `fs::remove_file` on the store: drops the
first binding of the key. -/
def mapRemove {α : Type} : List (String × α) → String → List (String × α)
  | [], _ => []
  | (k, v) :: rest, key => if k = key then rest else (k, v) :: mapRemove rest key

/-- Models the Rust enum `DataType` from main.rs.  The `Float32` payload
is represented by the accepted source text of the literal: no claim ever
observes a float value (only `Integer32` cells are compared, by
`select_where`), so only the success or failure of `f32` parsing is
semantically relevant. -/
inductive DataType : Type
  | String (s : String)
  | Integer32 (v : Int)
  | Float32 (raw : String)
deriving DecidableEq, Repr

/-- Models the Rust struct `Table`: `fields` is the schema typing map
("age" -> "int"), `columns` keeps the declared column order, `data` maps
each column name to its cell sequence. -/
structure Table : Type where
  name : String
  fields : List (String × String)
  columns : List String
  data : List (String × List DataType)
deriving DecidableEq, Repr

/-- The persistence store: the `data/` directory keyed by table name
(`data/{name}.json`).  `save_table` is `mapInsert`, `load_table` is
`mapGet` (whose `.unwrap()` on a missing file is a panic, i.e. `none`). -/
abbrev Store := List (String × Table)

/-- Digit run to a natural number, helper for the integer-literal model
(48 is the code point of the digit zero). -/
def digitsVal (ds : List Char) : Nat :=
  ds.foldl (fun a c => a * 10 + (c.toNat - 48)) 0

/-- Helper for `parseI32`: after the optional sign, Rust requires one or
more ASCII digits and a value inside the `i32` range. -/
def parseI32Digits (sign : Int) (ds : List Char) : Option Int :=
  if ds = [] then none
  else if ds.all Char.isDigit then
    let v : Int := sign * (digitsVal ds : Nat)
    if -2147483648 ≤ v ∧ v ≤ 2147483647 then some v else none
  else none

/-- Models the success domain and value of Rust's `str::parse::<i32>`
(std library, external to the repository): optional single `+`/`-` sign,
one or more ASCII digits, result within the 32-bit signed range. -/
def parseI32 (s : String) : Option Int :=
  match s.data with
  | '+' :: rest => parseI32Digits 1 rest
  | '-' :: rest => parseI32Digits (-1) rest
  | cs => parseI32Digits 1 cs

/-- Strips one optional leading sign character. -/
def stripSign : List Char → List Char
  | '+' :: rest => rest
  | '-' :: rest => rest
  | cs => cs

/-- One-or-more ASCII digits. -/
def isDigitList (cs : List Char) : Bool :=
  !cs.isEmpty && cs.all Char.isDigit

/-- Exponent part of a float literal: empty, or `e` then an optionally
signed digit run. -/
def expPartOk : List Char → Bool
  | [] => true
  | 'e' :: rest => isDigitList (stripSign rest)
  | _ => false

/-- Mantissa-plus-exponent shape of a Rust float literal (after sign
stripping and lowercasing): digits, optional `.` with optional fraction
digits, at least one digit overall before the exponent. -/
def recogNumber (cs : List Char) : Bool :=
  let ip := cs.takeWhile Char.isDigit
  let r1 := cs.dropWhile Char.isDigit
  match r1 with
  | '.' :: rest =>
    let fp := rest.takeWhile Char.isDigit
    let r2 := rest.dropWhile Char.isDigit
    (!ip.isEmpty || !fp.isEmpty) && expPartOk r2
  | r => !ip.isEmpty && expPartOk r

/-- Models the success domain of Rust's `str::parse::<f32>` (std
library, external to the repository): optional sign, then one of `inf`,
`infinity`, `nan` (case-insensitive) or a decimal number with optional
fraction and exponent. -/
def recognizeF32 (s : String) : Bool :=
  let cs := stripSign (s.data.map Char.toLower)
  cs == ['i', 'n', 'f'] || cs == ['i', 'n', 'f', 'i', 'n', 'i', 't', 'y'] ||
    cs == ['n', 'a', 'n'] || recogNumber cs

/-- Models `parse_value` from main.rs.  The Rust function calls
`raw.parse().unwrap()` for the numeric tags, so a failed parse panics:
here it yields `none`. -/
def parse_value (typ : String) (raw : String) : Option DataType :=
  match typ with
  | "int" => (parseI32 raw).map DataType.Integer32
  | "float" => if recognizeF32 raw then some (DataType.Float32 raw) else none
  | _ => some (DataType.String raw)

/-- Models Rust's `str::split(':')` used on CREATE col-specs: every
separator occurrence contributes a piece, possibly empty. -/
def splitColonAux : List Char → List Char → List String
  | [], acc => [String.mk acc]
  | ':' :: rest, acc => String.mk acc :: splitColonAux rest []
  | ch :: rest, acc => splitColonAux rest (acc ++ [ch])

/-- Splits a col-spec token on `:` exactly as `c.split(':').collect()`. -/
def splitColon (s : String) : List String :=
  splitColonAux s.data []

/-- Models `tokenize` from main.rs: `input.trim().split_whitespace()`,
i.e. split on whitespace runs, dropping empty tokens. -/
def tokenizeAux : List Char → List Char → List String
  | [], [] => []
  | [], acc => [String.mk acc]
  | ch :: rest, acc =>
    if ch.isWhitespace then
      match acc with
      | [] => tokenizeAux rest []
      | _ => String.mk acc :: tokenizeAux rest []
    else tokenizeAux rest (acc ++ [ch])

/-- Models `tokenize` from main.rs. -/
def tokenize (input : String) : List String :=
  tokenizeAux input.data []

/-- Models the CREATE TABLE body loop of `create_table` in main.rs: for
each `(col, data_type)` pair it inserts into `fields`, pushes onto
`columns`, and inserts an empty vector into `data`. -/
def createLoop : List (String × String) →
    List (String × String) → List String → List (String × List DataType) →
    List (String × String) × List String × List (String × List DataType)
  | [], fields, columns, data => (fields, columns, data)
  | (col, ty) :: rest, fields, columns, data =>
    createLoop rest (mapInsert fields col ty) (columns ++ [col]) (mapInsert data col [])

/-- Models `create_table` from main.rs up to the `save_table` call: the
`Table` value that gets persisted. -/
def buildTable (name : String) (cols : List (String × String)) : Table :=
  let r := createLoop cols [] [] []
  { name := name, fields := r.1, columns := r.2.1, data := r.2.2 }

/-- Models `create_table` followed by `save_table`: the table is written
into the store under its name, silently overwriting any previous one
(`File::create` truncates). -/
def create_table (store : Store) (name : String) (cols : List (String × String)) : Store :=
  mapInsert store name (buildTable name cols)

/-- Models `drop_table` from main.rs: deleting the persisted file
reports success, a missing file reports "does not exists". -/
inductive DropOutcome : Type
  | dropped (name : String)
  | dropMissing (name : String)
deriving DecidableEq, Repr

/-- Models `drop_table` from main.rs. -/
def drop_table (store : Store) (name : String) : Store × DropOutcome :=
  match mapGet store name with
  | some _ => (mapRemove store name, DropOutcome.dropped name)
  | none => (store, DropOutcome.dropMissing name)

/-- Structural model of the console results the interpreter prints; the
`{:15}` text formatting is presentation and outside the modelled core. -/
inductive Outcome : Type
  | created (name : String)
  | colSyntaxError (spec : String)
  | tableList (names : List String)
  | droppedTable (name : String)
  | dropMissingTable (name : String)
  | inserted
  | columnCountMismatch
  | selected (header : List String) (rows : List (List DataType))
  | foundRow (row : List DataType)
  | noRowFound (col : String) (target : Int)
  | columnNotFound (col : String)
  | onlyIntegerSearch
  | helpShown
  | invalidCommand
deriving DecidableEq, Repr

/-- Models the per-column loop of `insert_row` in main.rs: for column
`i`, look up the declared type (`.unwrap()`), coerce `values[i]`
(`parse_value`, whose failure panics), and push onto the column's vector
(`.get_mut(...).unwrap()`).  Any panic is `none`; the store is only
written after the whole loop succeeds. -/
def insertLoop (fields : List (String × String)) :
    List String → List String → List (String × List DataType) →
    Option (List (String × List DataType))
  | [], _, data => some data
  | c :: cs, v :: vs, data =>
    match mapGet fields c with
    | none => none
    | some ty =>
      match parse_value ty v with
      | none => none
      | some val =>
        match mapGet data c with
        | none => none
        | some s => insertLoop fields cs vs (mapInsert data c (s ++ [val]))
  | _ :: _, [], _ => none

/-- Models `insert_row` from main.rs: load the table (panic when
missing), check the arity (`values.len() != table.columns.len()` prints
the mismatch error and returns without mutation), run the coercion loop,
then `save_table`.  `none` is a panic of the process. -/
def insert_row (store : Store) (table_name : String) (values : List String) :
    Option (Store × Outcome) :=
  match mapGet store table_name with
  | none => none
  | some t =>
    if values.length ≠ t.columns.length then
      some (store, Outcome.columnCountMismatch)
    else
      match insertLoop t.fields t.columns values t.data with
      | none => none
      | some data' =>
        some (mapInsert store table_name { t with data := data' }, Outcome.inserted)

/-- Models the scan loop of `select_where` in main.rs: first index whose
cell is `Integer32` equal to the target; other variants are skipped. -/
def findIndexIntAux (target : Int) : List DataType → Nat → Option Nat
  | [], _ => none
  | d :: rest, i =>
    match d with
    | DataType.Integer32 v =>
      if v = target then some i else findIndexIntAux target rest (i + 1)
    | _ => findIndexIntAux target rest (i + 1)

/-- The scan of `select_where` started at index 0. -/
def findIndexInt (seq : List DataType) (target : Int) : Option Nat :=
  findIndexIntAux target seq 0

/-- Models the row-printing loop `for col in &table.columns { ...
table.data[col][i] ... }`: indexing a missing column or an out-of-range
index panics (`none`). -/
def rowAt (data : List (String × List DataType)) (cols : List String) (i : Nat) :
    Option (List DataType) :=
  match cols with
  | [] => some []
  | c :: cs =>
    match mapGet data c with
    | none => none
    | some s =>
      match s.get? i with
      | none => none
      | some cell =>
        match rowAt data cs i with
        | none => none
        | some r => some (cell :: r)

/-- Models the row-count computation of `select_all`: length of the
first schema column's sequence (`.unwrap()` panics when that column is
missing from `data`), or 0 for a zero-column table. -/
def rowCountOf (t : Table) : Option Nat :=
  match t.columns with
  | [] => some 0
  | c :: _ => (mapGet t.data c).map List.length

/-- Models the `for i in 0..row_count` printing loop of `select_all`,
collecting the rows in ascending index order. -/
def rowsUpTo (data : List (String × List DataType)) (cols : List String) :
    Nat → Option (List (List DataType))
  | 0 => some []
  | n + 1 =>
    match rowsUpTo data cols n with
    | none => none
    | some rs =>
      match rowAt data cols n with
      | none => none
      | some r => some (rs ++ [r])

/-- Models `select_all` from main.rs: load (panic when missing), header
= columns in schema order, then all rows. -/
def select_all (store : Store) (table_name : String) : Option Outcome :=
  match mapGet store table_name with
  | none => none
  | some t =>
    match rowCountOf t with
    | none => none
    | some n =>
      match rowsUpTo t.data t.columns n with
      | none => none
      | some rows => some (Outcome.selected t.columns rows)

/-- Models `select_where` from main.rs: load (panic when missing),
report `columnNotFound` when the filter column is absent from `data`,
otherwise scan for the first `Integer32` match and print that index of
every column in schema order. -/
def select_where (store : Store) (table_name : String) (col_name : String)
    (target_id : Int) : Option Outcome :=
  match mapGet store table_name with
  | none => none
  | some t =>
    match mapGet t.data col_name with
    | none => some (Outcome.columnNotFound col_name)
    | some seq =>
      match findIndexInt seq target_id with
      | some i =>
        match rowAt t.data t.columns i with
        | none => none
        | some r => some (Outcome.foundRow r)
      | none => some (Outcome.noRowFound col_name target_id)

/-- Models the CREATE col-spec validation loop in `main`: each token
must split on `:` into exactly two parts; the first token that does not
aborts with the syntax diagnostic naming it, and `create_table` never
runs. -/
def parseColSpecs : List String → Except String (List (String × String))
  | [] => Except.ok []
  | c :: cs =>
    match splitColon c with
    | [a, b] =>
      match parseColSpecs cs with
      | Except.ok rest => Except.ok ((a, b) :: rest)
      | Except.error e => Except.error e
    | _ => Except.error c

/-- Result of one trip around the `loop` in `main`: the interpreter
prints something and continues (`next`), breaks out on EXIT (`halted`),
or the process dies on a panic (`crashed`). -/
inductive StepResult : Type
  | next (store : Store) (out : Outcome)
  | halted (store : Store)
  | crashed
deriving DecidableEq, Repr

/-- Models the `match t.as_slice()` command dispatch in `main`, one loop
iteration over an already-tokenized line. -/
def dispatch (store : Store) : List String → StepResult
  | "CREATE" :: "TABLE" :: table :: rest =>
    (match parseColSpecs rest with
     | Except.error spec => StepResult.next store (Outcome.colSyntaxError spec)
     | Except.ok cols => StepResult.next (create_table store table cols) (Outcome.created table))
  | ["SHOW", "TABLES"] => StepResult.next store (Outcome.tableList (store.map Prod.fst))
  | ["DROP", "TABLE", table] =>
    (match drop_table store table with
     | (store', DropOutcome.dropped n) => StepResult.next store' (Outcome.droppedTable n)
     | (store', DropOutcome.dropMissing n) => StepResult.next store' (Outcome.dropMissingTable n))
  | "INSERT" :: table :: values =>
    (match insert_row store table values with
     | none => StepResult.crashed
     | some (store', out) => StepResult.next store' out)
  | ["SELECT", "*", "FROM", table] =>
    (match select_all store table with
     | none => StepResult.crashed
     | some out => StepResult.next store out)
  | ["SELECT", "*", "FROM", table, "WHERE", col, "=", val] =>
    (match parseI32 val with
     | some id =>
       (match select_where store table col id with
        | none => StepResult.crashed
        | some out => StepResult.next store out)
     | none => StepResult.next store Outcome.onlyIntegerSearch)
  | ["HELP"] => StepResult.next store Outcome.helpShown
  | ["EXIT"] => StepResult.halted store
  | _ => StepResult.next store Outcome.invalidCommand

/-- One full REPL iteration of `main`: tokenize the raw line, dispatch. -/
def step (store : Store) (input : String) : StepResult :=
  dispatch store (tokenize input)

/-! ## Helper lemmas about the association-list map model -/

theorem mapGet_mapInsert_self {α : Type} :
    ∀ (m : List (String × α)) (k : String) (v : α), mapGet (mapInsert m k v) k = some v
  | [], k, v => by simp [mapInsert, mapGet]
  | (a, b) :: rest, k, v => by
    by_cases h : a = k
    · simp [mapInsert, h, mapGet]
    · simp [mapInsert, h, mapGet, mapGet_mapInsert_self rest k v]

theorem mapGet_mapInsert_ne {α : Type} :
    ∀ (m : List (String × α)) (k k' : String) (v : α), k ≠ k' →
      mapGet (mapInsert m k v) k' = mapGet m k'
  | [], k, k', v, h => by simp [mapInsert, mapGet, h]
  | (a, b) :: rest, k, k', v, h => by
    by_cases ha : a = k
    · subst ha
      simp [mapInsert, mapGet, h]
    · simp only [mapInsert, if_neg ha, mapGet]
      by_cases ha' : a = k'
      · simp [ha']
      · simp [ha', mapGet_mapInsert_ne rest k k' v h]

theorem listGet?_lt_isSome {α : Type} :
    ∀ (s : List α) (i : Nat), i < s.length → ∃ x, s.get? i = some x
  | [], i, h => by simp at h
  | a :: rest, 0, _ => ⟨a, rfl⟩
  | a :: rest, i + 1, h => by
    exact listGet?_lt_isSome rest i (by simpa using h)

/-! ## Claim theorems -/

/-- C6: with an existing table and a value count different from the
schema column count, INSERT reports the column-count mismatch and
returns the store untouched (no column sequence changes length), and
the interpreter continues to the next command. -/
theorem c6_insert_arity_mismatch_no_mutation (store : Store) (name : String)
    (values : List String) (t : Table)
    (ht : mapGet store name = some t)
    (hne : values.length ≠ t.columns.length) :
    insert_row store name values = some (store, Outcome.columnCountMismatch) ∧
      dispatch store ("INSERT" :: name :: values) =
        StepResult.next store Outcome.columnCountMismatch := by
  have h1 : insert_row store name values = some (store, Outcome.columnCountMismatch) := by
    unfold insert_row
    rw [ht]
    simp [hne]
  refine ⟨h1, ?_⟩
  show (match insert_row store name values with
        | none => StepResult.crashed
        | some (store', out) => StepResult.next store' out) =
      StepResult.next store Outcome.columnCountMismatch
  rw [h1]

/-- Witness for C6 at a concrete store: a one-column table and a
two-value INSERT. -/
theorem c6_witness :
    insert_row [("t", RustDB.buildTable "t" [("a", "int")])] "t" ["1", "2"] =
      some ([("t", RustDB.buildTable "t" [("a", "int")])], Outcome.columnCountMismatch) := by
  exact (c6_insert_arity_mismatch_no_mutation
    [("t", RustDB.buildTable "t" [("a", "int")])] "t" ["1", "2"]
    (RustDB.buildTable "t" [("a", "int")]) (by rfl) (by decide)).1

/-- C9: a SELECT...WHERE whose filter value does not lexically parse as
a 32-bit signed integer is rejected at dispatch time with the
only-integer-search diagnostic; the store is untouched and no table is
loaded (the outcome is the same for every store). -/
theorem c9_nonint_filter_rejected_at_parse (store : Store) (table col val : String)
    (h : parseI32 val = none) :
    dispatch store ["SELECT", "*", "FROM", table, "WHERE", col, "=", val] =
      StepResult.next store Outcome.onlyIntegerSearch := by
  show (match parseI32 val with
        | some id =>
          (match select_where store table col id with
           | none => StepResult.crashed
           | some out => StepResult.next store out)
        | none => StepResult.next store Outcome.onlyIntegerSearch) =
      StepResult.next store Outcome.onlyIntegerSearch
  rw [h]

/-- Witness for C9: the non-numeric filter value `abc` against an
arbitrary concrete store. -/
theorem c9_witness :
    dispatch [] ["SELECT", "*", "FROM", "users", "WHERE", "id", "=", "abc"] =
      StepResult.next [] Outcome.onlyIntegerSearch :=
  c9_nonint_filter_rejected_at_parse [] "users" "id" "abc" (by decide)

/-- C10: `CREATE TABLE <name>` with zero col-spec tokens is accepted:
it persists a table with empty column list, empty type mapping and
empty data, and a subsequent `SELECT *` on it yields zero rows. -/
theorem c10_zero_column_create_and_select (store : Store) (name : String) :
    dispatch store ["CREATE", "TABLE", name] =
      StepResult.next (mapInsert store name (buildTable name []))
        (Outcome.created name) ∧
    buildTable name [] = { name := name, fields := [], columns := [], data := [] } ∧
    dispatch (mapInsert store name (buildTable name [])) ["SELECT", "*", "FROM", name] =
      StepResult.next (mapInsert store name (buildTable name []))
        (Outcome.selected [] []) := by
  refine ⟨rfl, rfl, ?_⟩
  have hget : mapGet (mapInsert store name (buildTable name [])) name =
      some (buildTable name []) := mapGet_mapInsert_self store name (buildTable name [])
  have hsel : select_all (mapInsert store name (buildTable name [])) name =
      some (Outcome.selected [] []) := by
    unfold select_all
    rw [hget]
    rfl
  show (match select_all (mapInsert store name (buildTable name [])) name with
        | none => StepResult.crashed
        | some out => StepResult.next (mapInsert store name (buildTable name [])) out) =
      StepResult.next (mapInsert store name (buildTable name []))
        (Outcome.selected [] [])
  rw [hsel]

/-- The coercion loop of `insert_row` fails (panics) whenever some
column's raw value does not parse as the column's declared type,
regardless of where in the row the failure sits. -/
theorem insertLoop_parse_fail (fields : List (String × String)) :
    ∀ (cols vals : List String) (data : List (String × List DataType))
      (i : Nat) (c v ty : String),
      cols.get? i = some c → vals.get? i = some v →
      mapGet fields c = some ty → parse_value ty v = none →
      insertLoop fields cols vals data = none
  | [], _, _, i, c, v, ty, hc, _, _, _ => by simp at hc
  | _ :: _, [], _, i, c, v, ty, _, hv, _, _ => by cases i <;> simp at hv
  | c0 :: cs, v0 :: vs, data, 0, c, v, ty, hc, hv, hty, hpf => by
    have hc0 : c0 = c := by simpa using hc
    have hv0 : v0 = v := by simpa using hv
    subst hc0
    subst hv0
    simp [insertLoop, hty, hpf]
  | c0 :: cs, v0 :: vs, data, i + 1, c, v, ty, hc, hv, hty, hpf => by
    have hc' : cs.get? i = some c := by simpa using hc
    have hv' : vs.get? i = some v := by simpa using hv
    rw [insertLoop]
    split
    · rfl
    · split
      · rfl
      · split
        · rfl
        · exact insertLoop_parse_fail fields cs vs _ i c v ty hc' hv' hty hpf

/-- When the schema columns are pairwise distinct, a successful run of
the coercion loop appends exactly one cell to every schema column's
sequence and leaves every other sequence untouched. -/
theorem insertLoop_grow (fields : List (String × String)) :
    ∀ (cols vals : List String)
      (data data' : List (String × List DataType)),
      cols.Nodup →
      insertLoop fields cols vals data = some data' →
      (∀ c, c ∈ cols → ∃ s v, mapGet data c = some s ∧
        mapGet data' c = some (s ++ [v])) ∧
      (∀ c, c ∉ cols → mapGet data' c = mapGet data c)
  | [], vals, data, data', _, h => by
    simp [insertLoop] at h
    subst h
    exact ⟨by simp, fun c _ => rfl⟩
  | c :: cs, [], data, data', _, h => by simp [insertLoop] at h
  | c :: cs, v :: vs, data, data', hnd, h => by
    rw [List.nodup_cons] at hnd
    obtain ⟨hc_notin, hnd'⟩ := hnd
    rw [insertLoop] at h
    split at h
    · exact absurd h (by simp)
    · split at h
      · exact absurd h (by simp)
      · split at h
        · exact absurd h (by simp)
        · rename_i scr2 val hp scr3 s hd
          obtain ⟨ihg, ihu⟩ :=
            insertLoop_grow fields cs vs (mapInsert data c (s ++ [val])) data' hnd' h
          constructor
          · intro c' hc'
            rcases List.mem_cons.mp hc' with rfl | hmem
            · refine ⟨s, val, hd, ?_⟩
              rw [ihu c' hc_notin, mapGet_mapInsert_self]
            · obtain ⟨s₂, v₂, hs₂, hs₂'⟩ := ihg c' hmem
              have hne : c ≠ c' := fun hh => hc_notin (hh ▸ hmem)
              refine ⟨s₂, v₂, ?_, hs₂'⟩
              rw [mapGet_mapInsert_ne data c c' (s ++ [val]) hne] at hs₂
              exact hs₂
          · intro c' hc'
            have h1 : c' ∉ cs := fun hh => hc' (List.mem_cons_of_mem _ hh)
            have h2 : c ≠ c' := fun hh => hc' (hh ▸ List.mem_cons_self _ _)
            rw [ihu c' h1, mapGet_mapInsert_ne data c c' (s ++ [val]) h2]

/-- C1 (amended): with an existing table and a matching value count, if
some raw value fails to parse as its column's declared type, the Rust
`.unwrap()` inside `parse_value` panics: the INSERT produces no result
and the interpreter process terminates (`crashed`); in particular
`save_table` is never reached, so no persisted column sequence is
mutated. -/
theorem c1_coercion_failure_crashes (store : Store) (name : String)
    (values : List String) (t : Table)
    (ht : mapGet store name = some t)
    (harity : values.length = t.columns.length)
    (hfail : ∃ i c v ty, t.columns.get? i = some c ∧ values.get? i = some v ∧
      mapGet t.fields c = some ty ∧ parse_value ty v = none) :
    insert_row store name values = none ∧
      dispatch store ("INSERT" :: name :: values) = StepResult.crashed := by
  obtain ⟨i, c, v, ty, hc, hv, hty, hpf⟩ := hfail
  have hloop : insertLoop t.fields t.columns values t.data = none :=
    insertLoop_parse_fail t.fields t.columns values t.data i c v ty hc hv hty hpf
  have h1 : insert_row store name values = none := by
    simp only [insert_row, ht]
    rw [if_neg (by omega)]
    simp [hloop]
  refine ⟨h1, ?_⟩
  show (match insert_row store name values with
        | none => StepResult.crashed
        | some (store', out) => StepResult.next store' out) = StepResult.crashed
  rw [h1]

/-- C1 counterexample: a table with a single `int` column and the
non-numeric raw value `x`.  The claim says the Insert fails with a
type-coercion error and the interpreter does not terminate; the code
instead panics (`raw.parse().unwrap()`), which kills the process —
modelled by `StepResult.crashed`, which is a distinct constructor from
every continuing `StepResult.next` outcome. -/
theorem c1_cex_coercion_failure_is_fatal :
    dispatch [("t", buildTable "t" [("a", "int")])] ["INSERT", "t", "x"] =
      StepResult.crashed := by rfl

/-- Witness instantiating the amended C1 theorem at the same input. -/
theorem c1_witness :
    insert_row [("t", buildTable "t" [("a", "int")])] "t" ["x"] = none ∧
      dispatch [("t", buildTable "t" [("a", "int")])] ["INSERT", "t", "x"] =
        StepResult.crashed :=
  c1_coercion_failure_crashes [("t", buildTable "t" [("a", "int")])] "t" ["x"]
    (buildTable "t" [("a", "int")]) (by rfl) (by rfl)
    ⟨0, "a", "x", "int", by rfl, by rfl, by rfl, by rfl⟩

/-- C2 (amended): INSERT, SELECT * and SELECT...WHERE against a table
name absent from the store panic — `load_table` calls
`File::open(...).unwrap()` — terminating the interpreter process,
instead of reporting a TableNotFound error and continuing. -/
theorem c2_missing_table_crashes (store : Store) (name : String)
    (h : mapGet store name = none) :
    (∀ values, dispatch store ("INSERT" :: name :: values) = StepResult.crashed) ∧
      dispatch store ["SELECT", "*", "FROM", name] = StepResult.crashed ∧
      (∀ col val target, parseI32 val = some target →
        dispatch store ["SELECT", "*", "FROM", name, "WHERE", col, "=", val] =
          StepResult.crashed) := by
  refine ⟨?_, ?_, ?_⟩
  · intro values
    have h1 : insert_row store name values = none := by
      simp only [insert_row, h]
    show (match insert_row store name values with
          | none => StepResult.crashed
          | some (store', out) => StepResult.next store' out) = StepResult.crashed
    rw [h1]
  · have h2 : select_all store name = none := by
      simp only [select_all, h]
    show (match select_all store name with
          | none => StepResult.crashed
          | some out => StepResult.next store out) = StepResult.crashed
    rw [h2]
  · intro col val target hpv
    have h3 : select_where store name col target = none := by
      simp only [select_where, h]
    show (match parseI32 val with
          | some id =>
            (match select_where store name col id with
             | none => StepResult.crashed
             | some out => StepResult.next store out)
          | none => StepResult.next store Outcome.onlyIntegerSearch) = StepResult.crashed
    rw [hpv]
    show (match select_where store name col target with
          | none => StepResult.crashed
          | some out => StepResult.next store out) = StepResult.crashed
    rw [h3]

/-- C2 counterexample: a SELECT * against the empty store.  The claim
says a TableNotFound error is reported and the interpreter continues;
the code instead panics on `File::open(...).unwrap()`, terminating the
process (`crashed`). -/
theorem c2_cex_missing_table_is_fatal :
    dispatch [] ["SELECT", "*", "FROM", "users"] = StepResult.crashed := by rfl

/-- Witness instantiating the amended C2 theorem at the empty store. -/
theorem c2_witness :
    dispatch [] ["INSERT", "users", "1"] = StepResult.crashed ∧
      dispatch [] ["SELECT", "*", "FROM", "users"] = StepResult.crashed ∧
      dispatch [] ["SELECT", "*", "FROM", "users", "WHERE", "id", "=", "3"] =
        StepResult.crashed := by
  obtain ⟨h1, h2, h3⟩ := c2_missing_table_crashes [] "users" (by rfl)
  exact ⟨h1 ["1"], h2, h3 "id" "3" 3 (by rfl)⟩

/-- C7 (amended): on a table whose schema column list has no duplicate
names, every successful INSERT appends exactly one cell to each schema
column's sequence; consequently, if all schema columns had a common
length before, they all have that length plus one after. -/
theorem c7_insert_grows_each_column_by_one (store : Store) (name : String)
    (values : List String) (t : Table) (store' : Store)
    (ht : mapGet store name = some t)
    (hnd : t.columns.Nodup)
    (hins : insert_row store name values = some (store', Outcome.inserted)) :
    ∃ t', mapGet store' name = some t' ∧ t'.columns = t.columns ∧
      (∀ c, c ∈ t.columns → ∃ s v, mapGet t.data c = some s ∧
        mapGet t'.data c = some (s ++ [v])) ∧
      (∀ L, (∀ c, c ∈ t.columns → ∀ s, mapGet t.data c = some s → s.length = L) →
        ∀ c, c ∈ t.columns → ∀ s', mapGet t'.data c = some s' → s'.length = L + 1) := by
  simp only [insert_row, ht] at hins
  by_cases harr : values.length = t.columns.length
  · rw [if_neg (by omega)] at hins
    cases hloop : insertLoop t.fields t.columns values t.data with
    | none => rw [hloop] at hins; simp at hins
    | some data' =>
      rw [hloop] at hins
      simp only [Option.some.injEq, Prod.mk.injEq] at hins
      obtain ⟨hstore, -⟩ := hins
      subst hstore
      refine ⟨{ t with data := data' }, mapGet_mapInsert_self store name _, rfl, ?_, ?_⟩
      · exact (insertLoop_grow t.fields t.columns values t.data data' hnd hloop).1
      · intro L hL c hc s' hs'
        obtain ⟨s, v, hs, hgrown⟩ :=
          (insertLoop_grow t.fields t.columns values t.data data' hnd hloop).1 c hc
        rw [hs'] at hgrown
        have hsv : s' = s ++ [v] := Option.some.inj hgrown
        rw [hsv, List.length_append, hL c hc s hs]
        rfl
  · rw [if_pos harr] at hins
    simp at hins

/-- C7 counterexample: `CREATE TABLE t a:int b:int a:int` accepts the
duplicated column name `a`; the following successful INSERT pushes two
cells into column `a`'s sequence and one into `b`'s, so `a` grows by
two and the sequences end with unequal lengths (2 vs 1), against the
claim's "grows by exactly one" and "all equal length". -/
theorem c7_cex_duplicate_column_insert :
    insert_row (create_table [] "t" [("a", "int"), ("b", "int"), ("a", "int")])
        "t" ["1", "2", "3"] =
      some ([("t",
        { name := "t", fields := [("a", "int"), ("b", "int")],
          columns := ["a", "b", "a"],
          data := [("a", [DataType.Integer32 1, DataType.Integer32 3]),
                   ("b", [DataType.Integer32 2])] })],
        Outcome.inserted) ∧
      (mapGet
        [("a", [DataType.Integer32 1, DataType.Integer32 3]),
         ("b", [DataType.Integer32 2])] "a").map List.length = some 2 ∧
      (mapGet
        [("a", [DataType.Integer32 1, DataType.Integer32 3]),
         ("b", [DataType.Integer32 2])] "b").map List.length = some 1 :=
  ⟨by rfl, by rfl, by rfl⟩

/-- Witness instantiating the amended C7 theorem on a duplicate-free
two-column table. -/
theorem c7_witness :
    ∃ t', mapGet [("t",
        ({ name := "t", fields := [("a", "int"), ("b", "int")],
           columns := ["a", "b"],
           data := [("a", [DataType.Integer32 1]), ("b", [DataType.Integer32 2])] } :
          Table))] "t" = some t' ∧
      t'.columns = (buildTable "t" [("a", "int"), ("b", "int")]).columns ∧
      (∀ c, c ∈ (buildTable "t" [("a", "int"), ("b", "int")]).columns →
        ∃ s v, mapGet (buildTable "t" [("a", "int"), ("b", "int")]).data c = some s ∧
          mapGet t'.data c = some (s ++ [v])) ∧
      (∀ L, (∀ c, c ∈ (buildTable "t" [("a", "int"), ("b", "int")]).columns →
          ∀ s, mapGet (buildTable "t" [("a", "int"), ("b", "int")]).data c = some s →
            s.length = L) →
        ∀ c, c ∈ (buildTable "t" [("a", "int"), ("b", "int")]).columns →
          ∀ s', mapGet t'.data c = some s' → s'.length = L + 1) :=
  c7_insert_grows_each_column_by_one
    [("t", buildTable "t" [("a", "int"), ("b", "int")])] "t" ["1", "2"]
    (buildTable "t" [("a", "int"), ("b", "int")])
    [("t",
      { name := "t", fields := [("a", "int"), ("b", "int")],
        columns := ["a", "b"],
        data := [("a", [DataType.Integer32 1]), ("b", [DataType.Integer32 2])] })]
    (by rfl) (by decide) (by rfl)

/-- The CREATE loop pushes exactly the col-spec names, in order, onto
the column list. -/
theorem createLoop_columns :
    ∀ (cols : List (String × String)) (fields : List (String × String))
      (columns : List String) (data : List (String × List DataType)),
      (createLoop cols fields columns data).2.1 = columns ++ cols.map Prod.fst
  | [], _, _, _ => by simp [createLoop]
  | (c, ty) :: rest, fields, columns, data => by
    simp [createLoop, createLoop_columns rest]

/-- After the CREATE loop, a key maps to the empty sequence in `data`
exactly when it is one of the col-spec names; other keys keep their
previous binding. -/
theorem createLoop_data_mem :
    ∀ (cols : List (String × String)) (fields : List (String × String))
      (columns : List String) (data : List (String × List DataType)) (k : String),
      mapGet (createLoop cols fields columns data).2.2 k =
        if k ∈ cols.map Prod.fst then some [] else mapGet data k
  | [], _, _, _, k => by simp [createLoop]
  | (c, ty) :: rest, fields, columns, data, k => by
    rw [createLoop, createLoop_data_mem rest]
    by_cases hk : k ∈ rest.map Prod.fst
    · simp [hk]
    · by_cases hkc : k = c
      · subst hkc
        simp [hk, mapGet_mapInsert_self]
      · have : c ≠ k := fun hh => hkc hh.symm
        simp [hk, hkc, mapGet_mapInsert_ne data c k [] this]

/-- After the CREATE loop, the typing map has a binding for a key
exactly when it is one of the col-spec names or was already bound. -/
theorem createLoop_fields_mem :
    ∀ (cols : List (String × String)) (fields : List (String × String))
      (columns : List String) (data : List (String × List DataType)) (k : String),
      (mapGet (createLoop cols fields columns data).1 k).isSome = true ↔
        (k ∈ cols.map Prod.fst ∨ (mapGet fields k).isSome = true)
  | [], _, _, _, k => by simp [createLoop]
  | (c, ty) :: rest, fields, columns, data, k => by
    rw [createLoop, createLoop_fields_mem rest]
    by_cases hkc : k = c
    · subst hkc
      simp [mapGet_mapInsert_self]
    · have : c ≠ k := fun hh => hkc hh.symm
      simp [hkc, mapGet_mapInsert_ne fields c k ty this]

/-- C5 (amended): for every table produced by CREATE TABLE, the set of
names in the ordered column list equals the key set of the
name-to-type mapping — but the ordered list itself may contain
duplicates when a name appears in several col-specs. -/
theorem c5_columns_match_field_keys (name : String) (cols : List (String × String))
    (k : String) :
    k ∈ (buildTable name cols).columns ↔
      (mapGet (buildTable name cols).fields k).isSome = true := by
  show k ∈ (createLoop cols [] [] []).2.1 ↔
    (mapGet (createLoop cols [] [] []).1 k).isSome = true
  rw [createLoop_columns, createLoop_fields_mem]
  simp [mapGet]

/-- C5 counterexample: `CREATE TABLE t a:int a:text` yields the column
list `["a", "a"]`, which does contain a duplicate name, against the
claim's "no duplicate names". -/
theorem c5_cex_duplicate_columns :
    (buildTable "t" [("a", "int"), ("a", "text")]).columns = ["a", "a"] ∧
      ¬ (buildTable "t" [("a", "int"), ("a", "text")]).columns.Nodup :=
  ⟨by rfl, by decide⟩

/-- C8: every CREATE TABLE persists, under the given name, a table
whose column list is exactly the col-spec names in order, with every
column's data sequence empty; a previously stored table of the same
name is silently overwritten (the lookup yields the new table no matter
what the store held), and all other tables are untouched. -/
theorem c8_create_table_result (store : Store) (name : String)
    (cols : List (String × String)) :
    mapGet (create_table store name cols) name = some (buildTable name cols) ∧
      (buildTable name cols).columns = cols.map Prod.fst ∧
      (∀ c, c ∈ (buildTable name cols).columns →
        mapGet (buildTable name cols).data c = some []) ∧
      (∀ n, n ≠ name → mapGet (create_table store name cols) n = mapGet store n) := by
  refine ⟨mapGet_mapInsert_self store name _, ?_, ?_, ?_⟩
  · show (createLoop cols [] [] []).2.1 = cols.map Prod.fst
    rw [createLoop_columns]
    rfl
  · intro c hc
    have hc' : c ∈ cols.map Prod.fst := by
      have := createLoop_columns cols [] [] []
      rw [show (buildTable name cols).columns = (createLoop cols [] [] []).2.1 from rfl,
        this] at hc
      simpa using hc
    show mapGet (createLoop cols [] [] []).2.2 c = some []
    rw [createLoop_data_mem]
    simp [hc']
  · intro n hn
    exact mapGet_mapInsert_ne store name n (buildTable name cols) (Ne.symm hn)

/-- Witness instantiating C8 on a two-column CREATE against the empty
store. -/
theorem c8_witness :
    mapGet (create_table [] "t" [("id", "int"), ("nm", "text")]) "t" =
        some (buildTable "t" [("id", "int"), ("nm", "text")]) ∧
      (buildTable "t" [("id", "int"), ("nm", "text")]).columns = ["id", "nm"] ∧
      mapGet (buildTable "t" [("id", "int"), ("nm", "text")]).data "id" = some [] ∧
      mapGet (create_table [] "t" [("id", "int"), ("nm", "text")]) "u" = mapGet [] "u" := by
  obtain ⟨h1, h2, h3, h4⟩ := c8_create_table_result [] "t" [("id", "int"), ("nm", "text")]
  exact ⟨h1, by simpa using h2, h3 "id" (by decide), h4 "u" (by decide)⟩

/-- A list of length two is literally a two-element list. -/
theorem listLengthTwo {α : Type} :
    ∀ (l : List α), l.length = 2 → ∃ a b, l = [a, b]
  | [], h => by simp at h
  | [a], h => by simp at h
  | [a, b], _ => ⟨a, b, rfl⟩
  | a :: b :: c :: rest, h => by simp at h

/-- A col-spec that does not split into exactly two parts makes
`parseColSpecs` fail immediately with that spec as the diagnostic. -/
theorem parseColSpecs_bad_head (c : String) (cs : List String)
    (hbad : (splitColon c).length ≠ 2) :
    parseColSpecs (c :: cs) = Except.error c := by
  rw [parseColSpecs]
  cases hsc : splitColon c with
  | nil => rfl
  | cons a t =>
    cases t with
    | nil => rfl
    | cons b t2 =>
      cases t2 with
      | nil => exact absurd (by rw [hsc]; rfl) hbad
      | cons d t3 => rfl

/-- A well-formed col-spec contributes its two parts and defers to the
rest of the list. -/
theorem parseColSpecs_good_head (c : String) (cs : List String) (a b : String)
    (hgood : splitColon c = [a, b]) :
    parseColSpecs (c :: cs) =
      (match parseColSpecs cs with
       | Except.ok rest => Except.ok ((a, b) :: rest)
       | Except.error e => Except.error e) := by
  rw [parseColSpecs, hgood]

/-- C4 (amended): in a CREATE TABLE command, each col-spec token must
split on `:` into exactly two parts (the parts themselves may be
empty); the first col-spec with any other part count aborts the whole
command with a syntax diagnostic identifying that spec, and no table —
not even a partial one — is created or persisted. -/
theorem c4_first_malformed_colspec_aborts (store : Store) (table : String)
    (pre post : List String) (c : String)
    (hpre : ∀ c', c' ∈ pre → (splitColon c').length = 2)
    (hbad : (splitColon c).length ≠ 2) :
    parseColSpecs (pre ++ c :: post) = Except.error c ∧
      dispatch store ("CREATE" :: "TABLE" :: table :: (pre ++ c :: post)) =
        StepResult.next store (Outcome.colSyntaxError c) := by
  have hp : parseColSpecs (pre ++ c :: post) = Except.error c := by
    induction pre with
    | nil => exact parseColSpecs_bad_head c post hbad
    | cons p ps ih =>
      obtain ⟨a, b, hab⟩ := listLengthTwo (splitColon p) (hpre p (List.mem_cons_self _ _))
      rw [List.cons_append, parseColSpecs_good_head p _ a b hab,
        ih (fun c' hc' => hpre c' (List.mem_cons_of_mem _ hc'))]
  refine ⟨hp, ?_⟩
  show (match parseColSpecs (pre ++ c :: post) with
        | Except.error spec => StepResult.next store (Outcome.colSyntaxError spec)
        | Except.ok cols =>
          StepResult.next (create_table store table cols) (Outcome.created table)) =
      StepResult.next store (Outcome.colSyntaxError c)
  rw [hp]

/-- C4 counterexample: the col-spec `a:` splits into the two parts
`["a", ""]`, the second of which is empty.  The claim requires two
NON-EMPTY parts and an abort, but the code only counts the parts: the
command is accepted and a table with column `a` of declared type `""`
is created and persisted. -/
theorem c4_cex_empty_part_accepted :
    splitColon "a:" = ["a", ""] ∧
      dispatch [] ["CREATE", "TABLE", "t", "a:"] =
        StepResult.next [("t", buildTable "t" [("a", "")])] (Outcome.created "t") :=
  ⟨by rfl, by rfl⟩

/-- Witness instantiating the amended C4 theorem: `bc` is the first
token without exactly two parts. -/
theorem c4_witness :
    parseColSpecs (["a:int"] ++ "bc" :: ["d:e"]) = Except.error "bc" ∧
      dispatch [] ("CREATE" :: "TABLE" :: "t" :: (["a:int"] ++ "bc" :: ["d:e"])) =
        StepResult.next [] (Outcome.colSyntaxError "bc") :=
  c4_first_malformed_colspec_aborts [] "t" ["a:int"] ["d:e"] "bc"
    (by decide) (by decide)

/-- One step of the `select_where` scan: an `Integer32` cell equal to
the target stops with the current index, every other cell is skipped. -/
theorem findIndexIntAux_cons (target : Int) (d : DataType) (rest : List DataType)
    (k : Nat) :
    findIndexIntAux target (d :: rest) k =
      if d = DataType.Integer32 target then some k
      else findIndexIntAux target rest (k + 1) := by
  cases d with
  | Integer32 v =>
    by_cases hv : v = target
    · subst hv
      simp [findIndexIntAux]
    · simp [findIndexIntAux, hv]
  | String s => simp [findIndexIntAux]
  | Float32 r => simp [findIndexIntAux]

/-- The scan returns `none` exactly when no cell of the sequence is the
`Integer32` variant equal to the target. -/
theorem findIndexIntAux_none_iff (target : Int) :
    ∀ (seq : List DataType) (k : Nat),
      findIndexIntAux target seq k = none ↔
        ∀ i, seq.get? i ≠ some (DataType.Integer32 target)
  | [], k => by simp [findIndexIntAux]
  | d :: rest, k => by
    rw [findIndexIntAux_cons]
    by_cases hd : d = DataType.Integer32 target
    · subst hd
      rw [if_pos rfl]
      constructor
      · intro h
        cases h
      · intro h
        exact absurd rfl (h 0)
    · rw [if_neg hd, findIndexIntAux_none_iff target rest (k + 1)]
      constructor
      · intro h i
        cases i with
        | zero =>
          intro hq
          exact hd (Option.some.inj hq)
        | succ i => exact h i
      · intro h i
        exact h (i + 1)

/-- The scan returns an index exactly when that index (relative to the
running counter) holds the first `Integer32` cell equal to the target. -/
theorem findIndexIntAux_some_iff (target : Int) :
    ∀ (seq : List DataType) (k m : Nat),
      findIndexIntAux target seq k = some m ↔
        ∃ i, m = k + i ∧ seq.get? i = some (DataType.Integer32 target) ∧
          ∀ j, j < i → seq.get? j ≠ some (DataType.Integer32 target)
  | [], k, m => by simp [findIndexIntAux]
  | d :: rest, k, m => by
    rw [findIndexIntAux_cons]
    by_cases hd : d = DataType.Integer32 target
    · subst hd
      rw [if_pos rfl]
      constructor
      · intro h
        have hk := Option.some.inj h
        exact ⟨0, by omega, rfl, fun j hj => absurd hj (Nat.not_lt_zero j)⟩
      · rintro ⟨i, hm, hg, hlt⟩
        cases i with
        | zero => exact congrArg some (by omega)
        | succ i' => exact absurd rfl (hlt 0 (Nat.succ_pos i'))
    · rw [if_neg hd, findIndexIntAux_some_iff target rest (k + 1) m]
      constructor
      · rintro ⟨i, hm, hg, hlt⟩
        refine ⟨i + 1, by omega, hg, ?_⟩
        intro j hj
        cases j with
        | zero =>
          intro hq
          exact hd (Option.some.inj hq)
        | succ j' => exact hlt j' (by omega)
      · rintro ⟨i, hm, hg, hlt⟩
        cases i with
        | zero => exact absurd (Option.some.inj hg) hd
        | succ i' => exact ⟨i', by omega, hg, fun j hj => hlt (j + 1) (by omega)⟩

/-- `findIndexInt` specification, no-match case. -/
theorem findIndexInt_none_iff (seq : List DataType) (target : Int) :
    findIndexInt seq target = none ↔
      ∀ i, seq.get? i ≠ some (DataType.Integer32 target) :=
  findIndexIntAux_none_iff target seq 0

/-- `findIndexInt` specification, match case: the returned index is the
lowest one holding an `Integer32` cell equal to the target. -/
theorem findIndexInt_some_iff (seq : List DataType) (target : Int) (i : Nat) :
    findIndexInt seq target = some i ↔
      seq.get? i = some (DataType.Integer32 target) ∧
        ∀ j, j < i → seq.get? j ≠ some (DataType.Integer32 target) := by
  rw [findIndexInt, findIndexIntAux_some_iff]
  constructor
  · rintro ⟨i', hm, hg, hlt⟩
    have hi : i' = i := by omega
    subst hi
    exact ⟨hg, hlt⟩
  · rintro ⟨hg, hlt⟩
    exact ⟨i, by omega, hg, hlt⟩

/-- An in-range index always yields a cell. -/
theorem listGet?_some_lt {α : Type} :
    ∀ (s : List α) (i : Nat) (x : α), s.get? i = some x → i < s.length
  | [], i, x, h => by simp at h
  | a :: rest, 0, x, _ => Nat.succ_pos _
  | a :: rest, i + 1, x, h =>
    Nat.succ_lt_succ (listGet?_some_lt rest i x h)

/-- When every column's sequence is long enough, the row-emitting loop
of `select_where` succeeds (no indexing panic). -/
theorem rowAt_total (data : List (String × List DataType)) :
    ∀ (cols : List String) (i : Nat),
      (∀ c, c ∈ cols → ∃ s, mapGet data c = some s ∧ i < s.length) →
      ∃ r, rowAt data cols i = some r
  | [], i, _ => ⟨[], rfl⟩
  | c :: cs, i, h => by
    obtain ⟨s, hs, hi⟩ := h c (List.mem_cons_self _ _)
    obtain ⟨cell, hcell⟩ := listGet?_lt_isSome s i hi
    obtain ⟨r, hr⟩ := rowAt_total data cs i (fun c' hc' => h c' (List.mem_cons_of_mem _ hc'))
    refine ⟨cell :: r, ?_⟩
    rw [rowAt]
    simp only [hs, hcell, hr]

/-- C3: on an existing table whose filter column is present with
sequence `seq`, and whose columns are row-aligned with it,
`select_where` returns exactly the full row (in schema column order,
via `rowAt`) at the lowest index whose cell in the filter column is the
`Integer32` variant equal to the target — cells of other variants never
match — and returns the no-row-found result exactly when no such cell
exists.  The result type carries at most one row, so at most one row is
ever returned. -/
theorem c3_select_where_first_int_match (store : Store) (name col : String)
    (target : Int) (t : Table) (seq : List DataType)
    (ht : mapGet store name = some t)
    (hcol : mapGet t.data col = some seq)
    (halign : ∀ c, c ∈ t.columns → ∃ s, mapGet t.data c = some s ∧
      s.length = seq.length) :
    (∀ i, seq.get? i = some (DataType.Integer32 target) →
      (∀ j, j < i → seq.get? j ≠ some (DataType.Integer32 target)) →
      ∃ r, rowAt t.data t.columns i = some r ∧
        select_where store name col target = some (Outcome.foundRow r)) ∧
    ((∀ i, seq.get? i ≠ some (DataType.Integer32 target)) →
      select_where store name col target = some (Outcome.noRowFound col target)) ∧
    (∀ r, select_where store name col target = some (Outcome.foundRow r) →
      ∃ i, seq.get? i = some (DataType.Integer32 target) ∧
        (∀ j, j < i → seq.get? j ≠ some (DataType.Integer32 target)) ∧
        rowAt t.data t.columns i = some r) := by
  have hsw : select_where store name col target =
      (match findIndexInt seq target with
       | some i =>
         (match rowAt t.data t.columns i with
          | none => none
          | some r => some (Outcome.foundRow r))
       | none => some (Outcome.noRowFound col target)) := by
    simp only [select_where, ht, hcol]
  refine ⟨?_, ?_, ?_⟩
  · intro i hg hlt
    have hfind := (findIndexInt_some_iff seq target i).mpr ⟨hg, hlt⟩
    have hlen : i < seq.length := listGet?_some_lt seq i _ hg
    obtain ⟨r, hr⟩ := rowAt_total t.data t.columns i (fun c' hc' => by
      obtain ⟨s, hs, hsl⟩ := halign c' hc'
      exact ⟨s, hs, by omega⟩)
    refine ⟨r, hr, ?_⟩
    rw [hsw]
    simp only [hfind, hr]
  · intro h
    have hfind := (findIndexInt_none_iff seq target).mpr h
    rw [hsw]
    simp only [hfind]
  · intro r hr
    rw [hsw] at hr
    cases hf : findIndexInt seq target with
    | none =>
      simp only [hf] at hr
      cases hr
    | some i =>
      simp only [hf] at hr
      cases hra : rowAt t.data t.columns i with
      | none =>
        simp only [hra] at hr
        cases hr
      | some r' =>
        simp only [hra, Option.some.injEq, Outcome.foundRow.injEq] at hr
        obtain ⟨hg, hlt⟩ := (findIndexInt_some_iff seq target i).mp hf
        exact ⟨i, hg, hlt, by rw [hra, hr]⟩

/-- Witness instantiating C3 on a concrete two-column, two-row table:
filtering `id = 2` returns the second row, in schema order. -/
theorem c3_witness :
    select_where
      [("users",
        { name := "users", fields := [("id", "int"), ("nm", "text")],
          columns := ["id", "nm"],
          data := [("id", [DataType.Integer32 1, DataType.Integer32 2]),
                   ("nm", [DataType.String "a", DataType.String "b"])] })]
      "users" "id" 2 =
      some (Outcome.foundRow [DataType.Integer32 2, DataType.String "b"]) := by
  obtain ⟨p1, p2, p3⟩ := c3_select_where_first_int_match
    [("users",
      { name := "users", fields := [("id", "int"), ("nm", "text")],
        columns := ["id", "nm"],
        data := [("id", [DataType.Integer32 1, DataType.Integer32 2]),
                 ("nm", [DataType.String "a", DataType.String "b"])] })]
    "users" "id" 2
    { name := "users", fields := [("id", "int"), ("nm", "text")],
      columns := ["id", "nm"],
      data := [("id", [DataType.Integer32 1, DataType.Integer32 2]),
               ("nm", [DataType.String "a", DataType.String "b"])] }
    [DataType.Integer32 1, DataType.Integer32 2]
    (by rfl) (by rfl)
    (by
      intro c hc
      simp only [List.mem_cons, List.not_mem_nil, or_false] at hc
      rcases hc with rfl | rfl
      · exact ⟨[DataType.Integer32 1, DataType.Integer32 2], by rfl, by rfl⟩
      · exact ⟨[DataType.String "a", DataType.String "b"], by rfl, by rfl⟩)
  obtain ⟨r, hr, hsel⟩ := p1 1 (by rfl) (by decide)
  have hrow : r = [DataType.Integer32 2, DataType.String "b"] := by
    have h2 : rowAt
        [("id", [DataType.Integer32 1, DataType.Integer32 2]),
         ("nm", [DataType.String "a", DataType.String "b"])] ["id", "nm"] 1 =
        some [DataType.Integer32 2, DataType.String "b"] := by rfl
    rw [h2] at hr
    exact (Option.some.inj hr).symm
  rw [hrow] at hsel
  exact hsel

end RustDB
